import Mathlib

/-!
# RBAC group service of go-kong: a shallow embedding

Source: `kong/rbac_group_service.go`.

Conventions of the embedding

* A Go pointer `*T` is `Option T` (`none` is `nil`); a Go slice is a list
  (`[]` is the nil slice).
* The collaborator `s.client` (its `NewRequest`, `Do` and `list` methods are not
  part of the file) is a parameter: a deterministic oracle whose answers may
  depend on every call made so far.  The list of calls made so far is the
  transport state; each service method takes it and hands back the extended one.
* A Go run-time panic is the outcome `Run.panic`.
* `context.Context` only travels through to the client and is left out.
-/

namespace kong

/-! ## Data model -/

/-- Modelled from the spec: the type `RBACGroup` is declared outside this file;
the spec gives a group an identifier, a display name and a free-text comment,
and the code reads `ID` and `Name` as string pointers. -/
structure RBACGroup where
  ID : Option String
  Name : Option String
  Comment : Option String
  deriving DecidableEq, Repr

/-- Modelled from the spec: `RBACRole` is declared outside this file; a role has an
identifier and a display name (the code reads `role.ID` as a string pointer). -/
structure RBACRole where
  ID : Option String
  Name : Option String
  deriving DecidableEq, Repr

/-- Modelled from the spec: `Workspace` is declared outside this file; the code
reads `workspace.ID` as a string pointer, the test sets `Name`. -/
structure Workspace where
  ID : Option String
  Name : Option String
  deriving DecidableEq, Repr

/-- Modelled from the spec: `RBACGroupRole` is declared outside this file; the spec
calls it the join entity linking a group to a role within a workspace. -/
structure RBACGroupRole where
  Group : Option RBACGroup
  Role : Option RBACRole
  Workspace : Option Workspace
  deriving DecidableEq, Repr

/-- Modelled from the spec: `ListOpt` is declared outside this file; the spec's
page cursor is an opaque continuation token plus a page-size hint. -/
structure ListOpt where
  Size : Int
  Offset : String
  deriving DecidableEq, Repr

/-- A Go `error` value.  `errorf msg` is a value made by `fmt.Errorf` in this file,
`transport msg` is a value handed back by the client. -/
inductive GoError where
  | transport (msg : String)
  | errorf (msg : String)
  deriving DecidableEq, Repr

/-- The method `Error()` of a Go error: its message. -/
def GoError.Error : GoError → String
  | .transport msg => msg
  | .errorf msg => msg

/-- The anonymous struct `roleData` of `AddRole` and `DeleteRole`
(`rbac_role_id`, `workspace_id`). -/
structure RoleData where
  RoleID : Option String
  WorkspaceID : Option String
  deriving DecidableEq, Repr

/-- The `body interface{}` argument of `NewRequest`, as this file uses it. -/
inductive Body where
  | nil
  | group (g : RBACGroup)
  | roleData (d : RoleData)
  deriving DecidableEq, Repr

/-- What `NewRequest` hands back (`*http.Request`); the service only passes it on
to `Do`. -/
structure Request where
  Method : String
  URL : String
  Payload : Body
  deriving DecidableEq, Repr

/-- The anonymous struct `listRolesResponse` of `ListRoles`: the field `Roles`
carries the JSON name `data`. -/
structure ListRolesResponse where
  Roles : List RBACGroupRole
  deriving DecidableEq, Repr

/-- The third argument of `Do`: the kind of value the response is decoded into. -/
inductive Target where
  | none
  | group
  | groupPtr
  | groupRole
  | listRoles
  deriving DecidableEq, Repr

/-- The Go type behind each `Target`: `nil`, `*RBACGroup`, `**RBACGroup`,
`*RBACGroupRole`, `*struct{Roles}`; the value is what `Do` left in it. -/
def Target.Val : Target → Type
  | .none => Unit
  | .group => RBACGroup
  | .groupPtr => Option RBACGroup
  | .groupRole => RBACGroupRole
  | .listRoles => ListRolesResponse

/-- One invocation of a client method. -/
inductive Call where
  | newRequest (method endpoint : String) (body : Body)
  | doRequest (req : Request) (target : Target)
  | list (endpoint : String) (opt : Option ListOpt)
  deriving DecidableEq, Repr

/-- The transport state: every client call made so far, oldest first. -/
abbrev Log := List Call

/-- A Go slice `[]T`; the nil slice is `[]`. -/
abbrev Slice (α : Type) : Type := List α

/-- A Go `[]byte`. -/
abbrev Bytes := List Nat

/-- The client `s.client` together with the JSON codec used by `List`.
`Raw` stands for `json.RawMessage`.  Every answer may depend on the calls made
before it. -/
structure Client (Raw : Type) where
  NewRequest : Log → String → String → Body → Except GoError Request
  Do : Log → Request → (t : Target) → Except GoError t.Val
  list : Log → String → Option ListOpt → Except GoError (List Raw × Option ListOpt)
  MarshalJSON : Raw → Except GoError Bytes
  Unmarshal : Bytes → Except GoError RBACGroup

/-- Outcome of running a Go function: it returns, or it panics. -/
inductive Run (α : Type) where
  | ret (a : α)
  | panic (reason : String)
  deriving DecidableEq, Repr

/-- The run-time error of dereferencing a nil pointer or calling a method on a nil
interface. -/
def nilDeref : String := "invalid memory address or nil pointer dereference"

/-- Modelled from the spec: `isEmptyString` is declared outside this file; the spec
speaks of an empty key, that is an absent string or the empty string. -/
def isEmptyString (s : Option String) : Bool :=
  match s with
  | none => true
  | some v => v == ""

/-! ## The service methods -/

/-- Go `Create`. -/
def RBACGroupService.Create {Raw : Type} (c : Client Raw) (log : Log)
    (group : Option RBACGroup) : Log × Run (Option RBACGroup × Option GoError) :=
  match group with
  | none => (log, .ret (none, some (.errorf "cannot create a nil user")))
  | some g =>
    let endpoint := "/groups"
    let method := "POST"
    let log1 := log ++ [Call.newRequest method endpoint (.group g)]
    match c.NewRequest log method endpoint (.group g) with
    | .error err => (log1, .ret (none, some err))
    | .ok req =>
      let log2 := log1 ++ [Call.doRequest req .group]
      match c.Do log1 req .group with
      | .error err => (log2, .ret (none, some err))
      | .ok createdGroup => (log2, .ret (some createdGroup, none))

/-- Go `Get`. -/
def RBACGroupService.Get {Raw : Type} (c : Client Raw) (log : Log)
    (nameOrID : Option String) : Log × Run (Option RBACGroup × Option GoError) :=
  if isEmptyString nameOrID then
    (log, .ret (none, some (.errorf "nameOrID cannot be nil for Get operation")))
  else
    match nameOrID with
    | none => (log, .panic nilDeref)
    | some key =>
      let endpoint := "/groups/" ++ key
      let log1 := log ++ [Call.newRequest "GET" endpoint .nil]
      match c.NewRequest log "GET" endpoint .nil with
      | .error err => (log1, .ret (none, some err))
      | .ok req =>
        let log2 := log1 ++ [Call.doRequest req .group]
        match c.Do log1 req .group with
        | .error err => (log2, .ret (none, some err))
        | .ok g => (log2, .ret (some g, none))

/-- Go `Update`. -/
def RBACGroupService.Update {Raw : Type} (c : Client Raw) (log : Log)
    (group : Option RBACGroup) : Log × Run (Option RBACGroup × Option GoError) :=
  match group with
  | none => (log, .ret (none, some (.errorf "cannot update a nil Group")))
  | some g =>
    if isEmptyString g.ID && isEmptyString g.Name then
      (log, .ret (none,
        some (.errorf "ID and Name cannot both be nil for Update operation")))
    else
      match g.ID with
      | none => (log, .panic nilDeref)
      | some id =>
        let endpoint := "/groups/" ++ id
        let log1 := log ++ [Call.newRequest "PATCH" endpoint (.group g)]
        match c.NewRequest log "PATCH" endpoint (.group g) with
        | .error err => (log1, .ret (none, some err))
        | .ok req =>
          let log2 := log1 ++ [Call.doRequest req .group]
          match c.Do log1 req .group with
          | .error err => (log2, .ret (none, some err))
          | .ok updatedGroup => (log2, .ret (some updatedGroup, none))

/-- Go `Delete`. -/
def RBACGroupService.Delete {Raw : Type} (c : Client Raw) (log : Log)
    (groupOrID : Option String) : Log × Run (Option GoError) :=
  if isEmptyString groupOrID then
    (log, .ret (some (.errorf "groupOrID cannot be nil for Delete operation")))
  else
    match groupOrID with
    | none => (log, .panic nilDeref)
    | some key =>
      let endpoint := "/groups/" ++ key
      let log1 := log ++ [Call.newRequest "DELETE" endpoint .nil]
      match c.NewRequest log "DELETE" endpoint .nil with
      | .error err => (log1, .ret (some err))
      | .ok req =>
        let log2 := log1 ++ [Call.doRequest req .none]
        match c.Do log1 req .none with
        | .error err => (log2, .ret (some err))
        | .ok _ => (log2, .ret none)

/-- The `for _, object := range data` loop of Go `List`: every raw object is
marshalled, unmarshalled into a fresh group and appended; the first error ends
the loop. -/
def RBACGroupService.decodeLoop {Raw : Type} (c : Client Raw) :
    List Raw → List RBACGroup → Except GoError (List RBACGroup)
  | [], groups => .ok groups
  | object :: rest, groups =>
    match c.MarshalJSON object with
    | .error err => .error err
    | .ok b =>
      match c.Unmarshal b with
      | .error err => .error err
      | .ok group => decodeLoop c rest (groups ++ [group])

/-- Go `List`. -/
def RBACGroupService.List {Raw : Type} (c : Client Raw) (log : Log)
    (opt : Option ListOpt) : Log × (Slice RBACGroup × Option ListOpt × Option GoError) :=
  let log1 := log ++ [Call.list "/groups/" opt]
  match c.list log "/groups/" opt with
  | .error err => (log1, ([], none, some err))
  | .ok (data, next) =>
    match decodeLoop c data [] with
    | .error err => (log1, ([], none, some err))
    | .ok groups => (log1, (groups, next, none))

/-- The `for opt != nil` loop of Go `ListAll`.  One unit of fuel is one iteration;
`none` means the fuel ran out before the loop ended. -/
def RBACGroupService.listAllLoop {Raw : Type} (c : Client Raw) :
    Nat → Log → Option ListOpt → Slice RBACGroup →
      Option (Log × (Slice RBACGroup × Option GoError))
  | _, log, none, groups => some (log, (groups, none))
  | 0, _, some _, _ => none
  | fuel + 1, log, some opt, groups =>
    match RBACGroupService.List c log (some opt) with
    | (log1, (_, _, some err)) => some (log1, ([], some err))
    | (log1, (data, next, none)) => listAllLoop c fuel log1 next (groups ++ data)

/-- Go `ListAll`.  The package constant `pageSize` is declared outside this file
and is a parameter here. -/
def RBACGroupService.ListAll {Raw : Type} (c : Client Raw) (pageSize : Int)
    (fuel : Nat) (log : Log) : Option (Log × (Slice RBACGroup × Option GoError)) :=
  listAllLoop c fuel log (some { Size := pageSize, Offset := "" }) []

/-- Go `AddRole`. -/
def RBACGroupService.AddRole {Raw : Type} (c : Client Raw) (log : Log)
    (nameOrID : Option String) (role : Option RBACRole) (workspace : Option Workspace) :
    Log × Run (Option RBACGroupRole × Option GoError) :=
  match role with
  | none => (log, .panic nilDeref)
  | some r =>
    match workspace with
    | none => (log, .panic nilDeref)
    | some w =>
      let roleData : RoleData := { RoleID := r.ID, WorkspaceID := w.ID }
      match nameOrID with
      | none => (log, .panic nilDeref)
      | some key =>
        let endpoint := "/groups/" ++ key ++ "/roles"
        let log1 := log ++ [Call.newRequest "POST" endpoint (.roleData roleData)]
        match c.NewRequest log "POST" endpoint (.roleData roleData) with
        | .error err => (log1, .ret (none, some err))
        | .ok req =>
          let log2 := log1 ++ [Call.doRequest req .groupRole]
          match c.Do log1 req .groupRole with
          | .error err =>
            (log2, .ret (none, some (.errorf ("error updating role: " ++ err.Error))))
          | .ok addedRole => (log2, .ret (some addedRole, none))

/-- Go `DeleteRole`.  After `Do`, the code calls `err.Error()` before it tests
`err != nil`; on a nil `err` that call panics. -/
def RBACGroupService.DeleteRole {Raw : Type} (c : Client Raw) (log : Log)
    (nameOrID : Option String) (role : Option RBACRole) (workspace : Option Workspace) :
    Log × Run (Option GoError) :=
  match role with
  | none => (log, .panic nilDeref)
  | some r =>
    match workspace with
    | none => (log, .panic nilDeref)
    | some w =>
      let roleData : RoleData := { RoleID := r.ID, WorkspaceID := w.ID }
      match nameOrID with
      | none => (log, .panic nilDeref)
      | some key =>
        let endpoint := "/groups/" ++ key ++ "/roles"
        let log1 := log ++ [Call.newRequest "DELETE" endpoint (.roleData roleData)]
        match c.NewRequest log "DELETE" endpoint (.roleData roleData) with
        | .error err => (log1, .ret (some err))
        | .ok req =>
          let log2 := log1 ++ [Call.doRequest req .groupPtr]
          match c.Do log1 req .groupPtr with
          | .ok _ => (log2, .panic nilDeref)
          | .error err =>
            if err.Error = "EOF" then (log2, .ret none)
            else (log2, .ret (some (.errorf ("error delete role: " ++ err.Error))))

/-- Go `ListRoles`. -/
def RBACGroupService.ListRoles {Raw : Type} (c : Client Raw) (log : Log)
    (nameOrID : Option String) : Log × Run (Slice RBACGroupRole × Option GoError) :=
  match nameOrID with
  | none => (log, .panic nilDeref)
  | some key =>
    let endpoint := "/groups/" ++ key ++ "/roles"
    let log1 := log ++ [Call.newRequest "GET" endpoint .nil]
    match c.NewRequest log "GET" endpoint .nil with
    | .error err => (log1, .ret ([], some err))
    | .ok req =>
      let log2 := log1 ++ [Call.doRequest req .listRoles]
      match c.Do log1 req .listRoles with
      | .error err =>
        (log2, .ret ([], some (.errorf ("error retrieving list of roles: " ++ err.Error))))
      | .ok listRolesResponse => (log2, .ret (listRolesResponse.Roles, none))

/-! ## Helper definitions for the statements -/

/-- The `Do` call that follows `NewRequest method endpoint body` made at `log`:
one call when the request was built, none when `NewRequest` failed. -/
def doCalls {Raw : Type} (c : Client Raw) (log : Log) (method endpoint : String)
    (body : Body) (t : Target) : List Call :=
  match c.NewRequest log method endpoint body with
  | .ok req => [Call.doRequest req t]
  | .error _ => []

/-- The transport fails with `e` on the request `method endpoint body` made at
`log`: `NewRequest` fails with `e`, or the request is built and `Do` fails with
`e`. -/
def RequestFails {Raw : Type} (c : Client Raw) (log : Log) (method endpoint : String)
    (body : Body) (t : Target) (e : GoError) : Prop :=
  c.NewRequest log method endpoint body = .error e ∨
    ∃ req : Request, c.NewRequest log method endpoint body = .ok req ∧
      c.Do (log ++ [Call.newRequest method endpoint body]) req t = .error e

/-- The zero value of each decode target. -/
def zeroVal : (t : Target) → t.Val
  | .none => ()
  | .group => { ID := none, Name := none, Comment := none }
  | .groupPtr => none
  | .groupRole => { Group := none, Role := none, Workspace := none }
  | .listRoles => { Roles := [] }

/-- A sample group as the remote service would store it. -/
def storedGroup (body : Body) : RBACGroup :=
  match body with
  | .group g => { ID := some "7f3a", Name := g.Name, Comment := g.Comment }
  | _ => { ID := some "7f3a", Name := none, Comment := none }

/-- A sample client on which every call succeeds: requests are built as asked,
`Do` decodes a stored group carrying a generated ID, listings are empty. -/
def okClient : Client Nat where
  NewRequest := fun _ method endpoint body =>
    .ok { Method := method, URL := endpoint, Payload := body }
  Do := fun _ req t =>
    match t with
    | .none => .ok ()
    | .group => .ok (storedGroup req.Payload)
    | .groupPtr => .ok none
    | .groupRole => .ok { Group := none, Role := none, Workspace := none }
    | .listRoles => .ok { Roles := [{ Group := none, Role := none, Workspace := none }] }
  list := fun _ _ _ => .ok ([], none)
  MarshalJSON := fun n => .ok [n]
  Unmarshal := fun _ => .ok { ID := none, Name := none, Comment := none }

/-- A sample client on which requests are built but every `Do` fails with `e`. -/
def doFailsClient (e : GoError) : Client Nat where
  NewRequest := fun _ method endpoint body =>
    .ok { Method := method, URL := endpoint, Payload := body }
  Do := fun _ _ _ => .error e
  list := fun _ _ _ => .error e
  MarshalJSON := fun n => .ok [n]
  Unmarshal := fun _ => .ok { ID := none, Name := none, Comment := none }

/-- A sample client on which `NewRequest` fails with `e`. -/
def newRequestFailsClient (e : GoError) : Client Nat where
  NewRequest := fun _ _ _ _ => .error e
  Do := fun _ _ t => .ok (zeroVal t)
  list := fun _ _ _ => .error e
  MarshalJSON := fun n => .ok [n]
  Unmarshal := fun _ => .ok { ID := none, Name := none, Comment := none }

/-- Decoding of one raw object as the body of the loop of `List` does it:
`MarshalJSON`, then `json.Unmarshal` into a fresh group. -/
def decodeOne {Raw : Type} (c : Client Raw) (object : Raw) : Except GoError RBACGroup :=
  match c.MarshalJSON object with
  | .error err => .error err
  | .ok b => c.Unmarshal b

/-- At transport state `log`, the listing request with cursor `opt` answers with
raw objects that decode, one by one and in order, to the groups `p`, and with
the cursor `next`. -/
def PageOK {Raw : Type} (c : Client Raw) (log : Log) (opt : ListOpt)
    (p : List RBACGroup) (next : Option ListOpt) : Prop :=
  ∃ data : List Raw, c.list log "/groups/" (some opt) = .ok (data, next) ∧
    List.Forall₂ (fun object g => decodeOne c object = .ok g) data p

/-- At transport state `log`, the listing request with cursor `opt` fails with
`e`: either the client's `list` fails with `e`, or it answers and the first raw
object that does not decode fails with `e`. -/
def PageFails {Raw : Type} (c : Client Raw) (log : Log) (opt : ListOpt)
    (e : GoError) : Prop :=
  c.list log "/groups/" (some opt) = .error e ∨
    ∃ (before : List Raw) (object : Raw) (after : List Raw) (next : Option ListOpt),
      c.list log "/groups/" (some opt) = .ok (before ++ object :: after, next) ∧
        (∀ o ∈ before, ∃ g, decodeOne c o = .ok g) ∧ decodeOne c object = .error e

/-- Starting at transport state `log` with cursor `opt`, the successive listing
requests answer the pages `ps`: each entry is the groups of a page and the
cursor that page hands back for the next one. -/
def Pages {Raw : Type} (c : Client Raw) :
    Log → ListOpt → List (List RBACGroup × ListOpt) → Prop
  | _, _, [] => True
  | log, opt, (p, next) :: rest =>
    PageOK c log opt p (some next) ∧ Pages c (log ++ [Call.list "/groups/" (some opt)]) next rest

/-- The listing requests that fetch the pages `ps` starting with cursor `opt`:
the first uses `opt`, each later one the cursor of the page before it. -/
def listCalls : ListOpt → List (List RBACGroup × ListOpt) → List Call
  | _, [] => []
  | opt, (_, next) :: rest => Call.list "/groups/" (some opt) :: listCalls next rest

/-- The cursor in hand after the pages `ps`. -/
def lastCursor : ListOpt → List (List RBACGroup × ListOpt) → ListOpt
  | opt, [] => opt
  | _, (_, next) :: rest => lastCursor next rest

/-- A sample stored group for the raw object `n`. -/
def sampleGroup (n : Nat) : RBACGroup :=
  { ID := some (if n = 1 then "g1" else if n = 2 then "g2" else "g3"),
    Name := none, Comment := none }

/-- A sample client with a two-page listing: the first page holds the raw objects
`1, 2` and points to offset `p2`; the request at offset `p2` answers `second`.
The raw object `0` does not decode. -/
def pagedClient (second : Except GoError (List Nat × Option ListOpt)) : Client Nat where
  NewRequest := fun _ method endpoint body =>
    .ok { Method := method, URL := endpoint, Payload := body }
  Do := fun _ _ t => .ok (zeroVal t)
  list := fun _ _ opt =>
    match opt with
    | none => .ok ([], none)
    | some o =>
      if o.Offset = "" then .ok ([1, 2], some { Size := o.Size, Offset := "p2" })
      else second
  MarshalJSON := fun n => .ok [n]
  Unmarshal := fun b =>
    match b with
    | [0] => .error (.transport "unexpected end of JSON input")
    | [n] => .ok (sampleGroup n)
    | _ => .error (.transport "invalid character")

/-! ## Lemmas on the loops -/

/-- The decoding loop of `List`, run on objects that all decode, appends the decoded
groups to the accumulator in order. -/
theorem decodeLoop_ok {Raw : Type} (c : Client Raw) (data : List Raw)
    (p : List RBACGroup)
    (h : List.Forall₂ (fun object g => decodeOne c object = .ok g) data p) :
    ∀ acc, RBACGroupService.decodeLoop c data acc = .ok (acc ++ p) := by
  induction h with
  | nil => intro acc; simp [RBACGroupService.decodeLoop]
  | @cons object g data p hd _ ih =>
    intro acc
    unfold decodeOne at hd
    unfold RBACGroupService.decodeLoop
    cases hm : c.MarshalJSON object with
    | error err => rw [hm] at hd; cases hd
    | ok b =>
      rw [hm] at hd
      simp only [] at hd ⊢
      rw [hd]
      simp only []
      rw [ih]
      simp

/-- The decoding loop of `List` stops with the error of the first object that does
not decode. -/
theorem decodeLoop_error {Raw : Type} (c : Client Raw) (before : List Raw)
    (object : Raw) (after : List Raw) (e : GoError)
    (hbefore : ∀ o ∈ before, ∃ g, decodeOne c o = .ok g)
    (hobject : decodeOne c object = .error e) :
    ∀ acc, RBACGroupService.decodeLoop c (before ++ object :: after) acc = .error e := by
  induction before with
  | nil =>
    intro acc
    unfold decodeOne at hobject
    simp only [List.nil_append]
    unfold RBACGroupService.decodeLoop
    cases hm : c.MarshalJSON object with
    | error err => rw [hm] at hobject; simpa using hobject
    | ok b => rw [hm] at hobject; simp only [] at hobject ⊢; rw [hobject]
  | cons o before ih =>
    intro acc
    obtain ⟨g, hg⟩ := hbefore o (List.mem_cons_self _ _)
    unfold decodeOne at hg
    simp only [List.cons_append]
    unfold RBACGroupService.decodeLoop
    cases hm : c.MarshalJSON o with
    | error err => rw [hm] at hg; cases hg
    | ok b =>
      rw [hm] at hg
      simp only [] at hg ⊢
      rw [hg]
      simp only []
      exact ih (fun o2 ho2 => hbefore o2 (List.mem_cons_of_mem _ ho2)) _

/-- `List` on a page that is fetched and decodes: one `list` call, the groups and
the cursor come back with no error. -/
theorem list_pageOK {Raw : Type} (c : Client Raw) (log : Log) (opt : ListOpt)
    (p : List RBACGroup) (next : Option ListOpt) (h : PageOK c log opt p next) :
    RBACGroupService.List c log (some opt)
      = (log ++ [Call.list "/groups/" (some opt)], (p, next, none)) := by
  obtain ⟨data, hlist, hdec⟩ := h
  have hloop := decodeLoop_ok c data p hdec []
  simp only [List.nil_append] at hloop
  simp [RBACGroupService.List, hlist, hloop]

/-- `List` on a failing page: one `list` call, the error comes back with a nil
list and a nil cursor. -/
theorem list_pageFails {Raw : Type} (c : Client Raw) (log : Log) (opt : ListOpt)
    (e : GoError) (h : PageFails c log opt e) :
    RBACGroupService.List c log (some opt)
      = (log ++ [Call.list "/groups/" (some opt)], ([], none, some e)) := by
  rcases h with hlist | ⟨before, object, after, next, hlist, hbefore, hobject⟩
  · simp [RBACGroupService.List, hlist]
  · have hloop := decodeLoop_error c before object after e hbefore hobject []
    simp [RBACGroupService.List, hlist, hloop]

/-- The loop of `ListAll` walks through the pages `ps`, one iteration each. -/
theorem listAllLoop_pages {Raw : Type} (c : Client Raw)
    (ps : List (List RBACGroup × ListOpt)) :
    ∀ (log : Log) (opt : ListOpt) (acc : List RBACGroup) (fuel : Nat),
      Pages c log opt ps →
      RBACGroupService.listAllLoop c (ps.length + fuel) log (some opt) acc
        = RBACGroupService.listAllLoop c fuel (log ++ listCalls opt ps)
            (some (lastCursor opt ps)) (acc ++ (ps.map Prod.fst).flatten) := by
  induction ps with
  | nil => intro log opt acc fuel _; simp [listCalls, lastCursor]
  | cons hd rest ih =>
    intro log opt acc fuel h
    obtain ⟨p, next⟩ := hd
    obtain ⟨hpage, hrest⟩ := h
    have hfuel : (((p, next) :: rest).length + fuel) = (rest.length + fuel) + 1 := by
      simp only [List.length_cons]; omega
    rw [hfuel]
    conv_lhs => unfold RBACGroupService.listAllLoop
    rw [list_pageOK c log opt p (some next) hpage]
    simp only []
    rw [ih _ _ _ _ hrest]
    simp [listCalls, lastCursor]

/-- The loop of `ListAll` ends as soon as the cursor is nil. -/
theorem listAllLoop_done {Raw : Type} (c : Client Raw) (fuel : Nat) (log : Log)
    (acc : List RBACGroup) :
    RBACGroupService.listAllLoop c fuel log none acc = some (log, (acc, none)) := by
  cases fuel <;> rfl

/-- One iteration of the loop of `ListAll` on a page that hands back no cursor. -/
theorem listAllLoop_last_ok {Raw : Type} (c : Client Raw) (log : Log) (opt : ListOpt)
    (acc last : List RBACGroup) (fuel : Nat) (h : PageOK c log opt last none) :
    RBACGroupService.listAllLoop c (fuel + 1) log (some opt) acc
      = some (log ++ [Call.list "/groups/" (some opt)], (acc ++ last, none)) := by
  conv_lhs => unfold RBACGroupService.listAllLoop
  rw [list_pageOK c log opt last none h]
  simp only []
  exact listAllLoop_done c fuel _ _

/-- One iteration of the loop of `ListAll` on a failing page. -/
theorem listAllLoop_last_fails {Raw : Type} (c : Client Raw) (log : Log) (opt : ListOpt)
    (acc : List RBACGroup) (e : GoError) (fuel : Nat) (h : PageFails c log opt e) :
    RBACGroupService.listAllLoop c (fuel + 1) log (some opt) acc
      = some (log ++ [Call.list "/groups/" (some opt)], ([], some e)) := by
  conv_lhs => unfold RBACGroupService.listAllLoop
  rw [list_pageFails c log opt e h]

/-! ## Theorems -/

/-- C1: for every client and every transport state, `Get` and `Delete` called with
an absent key or with the empty string return their validation error and leave
the call log as it was: neither `NewRequest` nor `Do` is invoked. -/
theorem get_delete_empty_key {Raw : Type} (c : Client Raw) (log : Log)
    (key : Option String) (hkey : key = none ∨ key = some "") :
    RBACGroupService.Get c log key
        = (log, .ret (none, some (.errorf "nameOrID cannot be nil for Get operation"))) ∧
      RBACGroupService.Delete c log key
        = (log, .ret (some (.errorf "groupOrID cannot be nil for Delete operation"))) := by
  rcases hkey with rfl | rfl <;> exact ⟨rfl, rfl⟩

/-- C1 at the empty string, on a client that would answer every call. -/
theorem get_delete_empty_key_witness :
    (some "" = none ∨ some "" = some "") ∧
      RBACGroupService.Get okClient [] (some "")
        = ([], .ret (none, some (.errorf "nameOrID cannot be nil for Get operation"))) ∧
      RBACGroupService.Delete okClient [] (some "")
        = ([], .ret (some (.errorf "groupOrID cannot be nil for Delete operation"))) :=
  ⟨Or.inr rfl, get_delete_empty_key okClient [] (some "") (Or.inr rfl)⟩

/-- C7: `Create` with an absent group returns its validation error and leaves the
call log as it was.  With a present group the calls it adds are exactly one
`NewRequest("POST", "/groups", group)` followed by the `Do` of the request built
(no `Do` when building failed), and when both calls succeed the group returned is
the one `Do` decoded. -/
theorem create_contract {Raw : Type} (c : Client Raw) (log : Log) :
    RBACGroupService.Create c log none
        = (log, .ret (none, some (.errorf "cannot create a nil user"))) ∧
      ∀ g : RBACGroup,
        (RBACGroupService.Create c log (some g)).1
            = log ++ Call.newRequest "POST" "/groups" (.group g)
                :: doCalls c log "POST" "/groups" (.group g) .group ∧
          ∀ (req : Request) (created : RBACGroup),
            c.NewRequest log "POST" "/groups" (.group g) = .ok req →
            c.Do (log ++ [Call.newRequest "POST" "/groups" (.group g)]) req .group
                = .ok created →
            RBACGroupService.Create c log (some g)
              = (log ++ [Call.newRequest "POST" "/groups" (.group g),
                          Call.doRequest req .group],
                  .ret (some created, none)) := by
  refine ⟨rfl, fun g => ⟨?_, ?_⟩⟩
  · simp only [RBACGroupService.Create, doCalls]
    cases c.NewRequest log "POST" "/groups" (.group g) with
    | error err => simp
    | ok req =>
      simp only []
      cases c.Do (log ++ [Call.newRequest "POST" "/groups" (.group g)]) req .group <;> simp
  · intro req created hreq hdo
    simp [RBACGroupService.Create, hreq, hdo]

/-- C7 on the sample client: the group handed in has no ID, the one handed back is
the stored one with its generated ID. -/
theorem create_contract_witness :
    RBACGroupService.Create okClient []
        (some { ID := none, Name := some "ops", Comment := some "testing" })
      = ([Call.newRequest "POST" "/groups"
            (.group { ID := none, Name := some "ops", Comment := some "testing" }),
          Call.doRequest
            { Method := "POST", URL := "/groups",
              Payload := .group { ID := none, Name := some "ops", Comment := some "testing" } }
            .group],
         .ret (some { ID := some "7f3a", Name := some "ops", Comment := some "testing" },
               none)) :=
  ((create_contract okClient []).2
      { ID := none, Name := some "ops", Comment := some "testing" }).2 _ _ rfl rfl

/-- C2: a group that has a name and no ID passes the validation of `Update`, and
`Update` then panics on the nil `ID` before any client call; it does not issue a
PATCH request. -/
theorem update_name_without_id_panics {Raw : Type} (c : Client Raw) (log : Log)
    (name : String) (comment : Option String) (hname : name ≠ "") :
    RBACGroupService.Update c log (some { ID := none, Name := some name, Comment := comment })
      = (log, .panic nilDeref) := by
  simp [RBACGroupService.Update, isEmptyString, hname]

/-- C2 at the group named `ops`. -/
theorem update_name_without_id_panics_witness :
    ("ops" ≠ "") ∧
      RBACGroupService.Update okClient []
          (some { ID := none, Name := some "ops", Comment := none })
        = ([], .panic nilDeref) :=
  ⟨by decide, update_name_without_id_panics okClient [] "ops" none (by decide)⟩

/-- C3: when `NewRequest` builds the request and `Do` completes without error,
`DeleteRole` panics: it calls `err.Error()` on the nil error. -/
theorem deleteRole_panics_on_success {Raw : Type} (c : Client Raw) (log : Log)
    (k : String) (r : RBACRole) (w : Workspace) (req : Request) (v : Option RBACGroup)
    (hreq : c.NewRequest log "DELETE" ("/groups/" ++ k ++ "/roles")
        (.roleData { RoleID := r.ID, WorkspaceID := w.ID }) = .ok req)
    (hdo : c.Do (log ++ [Call.newRequest "DELETE" ("/groups/" ++ k ++ "/roles")
        (.roleData { RoleID := r.ID, WorkspaceID := w.ID })]) req .groupPtr = .ok v) :
    (RBACGroupService.DeleteRole c log (some k) (some r) (some w)).2 = .panic nilDeref := by
  simp [RBACGroupService.DeleteRole, hreq, hdo]

/-- C3 on the sample client, whose `Do` succeeds. -/
theorem deleteRole_panics_on_success_witness :
    (RBACGroupService.DeleteRole okClient [] (some "7f3a")
        (some { ID := some "r1", Name := some "roleA" })
        (some { ID := some "w1", Name := some "test-workspace" })).2
      = .panic nilDeref :=
  deleteRole_panics_on_success okClient [] "7f3a" { ID := some "r1", Name := some "roleA" }
    { ID := some "w1", Name := some "test-workspace" } _ _ rfl rfl

/-- C4: when `NewRequest` builds the request and `Do` fails with `e`, `DeleteRole`
returns no error if the message of `e` is exactly `EOF`, and otherwise returns an
error (the message of `e` behind the words `error delete role: `). -/
theorem deleteRole_eof {Raw : Type} (c : Client Raw) (log : Log)
    (k : String) (r : RBACRole) (w : Workspace) (req : Request) (e : GoError)
    (hreq : c.NewRequest log "DELETE" ("/groups/" ++ k ++ "/roles")
        (.roleData { RoleID := r.ID, WorkspaceID := w.ID }) = .ok req)
    (hdo : c.Do (log ++ [Call.newRequest "DELETE" ("/groups/" ++ k ++ "/roles")
        (.roleData { RoleID := r.ID, WorkspaceID := w.ID })]) req .groupPtr = .error e) :
    (e.Error = "EOF" →
        (RBACGroupService.DeleteRole c log (some k) (some r) (some w)).2 = .ret none) ∧
      (e.Error ≠ "EOF" →
        (RBACGroupService.DeleteRole c log (some k) (some r) (some w)).2
          = .ret (some (.errorf ("error delete role: " ++ e.Error)))) := by
  constructor <;> intro h <;> simp [RBACGroupService.DeleteRole, hreq, hdo, h]

/-- C4 on two sample clients: `Do` failing with `EOF`, and with `connection refused`. -/
theorem deleteRole_eof_witness :
    (RBACGroupService.DeleteRole (doFailsClient (.transport "EOF")) [] (some "7f3a")
        (some { ID := some "r1", Name := none }) (some { ID := some "w1", Name := none })).2
      = .ret none ∧
    (RBACGroupService.DeleteRole (doFailsClient (.transport "connection refused")) []
        (some "7f3a")
        (some { ID := some "r1", Name := none }) (some { ID := some "w1", Name := none })).2
      = .ret (some (.errorf "error delete role: connection refused")) :=
  ⟨(deleteRole_eof (doFailsClient (.transport "EOF")) [] "7f3a"
      { ID := some "r1", Name := none } { ID := some "w1", Name := none } _ _ rfl rfl).1 rfl,
   (deleteRole_eof (doFailsClient (.transport "connection refused")) [] "7f3a"
      { ID := some "r1", Name := none } { ID := some "w1", Name := none } _ _ rfl rfl).2
      (by decide)⟩

/-- C8: for a present key `k`, role `r` and workspace `w`, the first call of
`AddRole` and of `DeleteRole` is `NewRequest` on the endpoint `/groups/k/roles`
with the body `(rbac_role_id = r.ID, workspace_id = w.ID)`, with method `POST` for
`AddRole` and `DELETE` for `DeleteRole`, followed by the `Do` of the request built.
`ListRoles` calls `NewRequest("GET", "/groups/k/roles")` with no body and, when
both calls succeed, returns the `Roles` (JSON `data`) field of what `Do` decoded. -/
theorem role_endpoints {Raw : Type} (c : Client Raw) (log : Log)
    (k : String) (r : RBACRole) (w : Workspace) :
    (RBACGroupService.AddRole c log (some k) (some r) (some w)).1
        = log ++ Call.newRequest "POST" ("/groups/" ++ k ++ "/roles")
              (.roleData { RoleID := r.ID, WorkspaceID := w.ID })
            :: doCalls c log "POST" ("/groups/" ++ k ++ "/roles")
                (.roleData { RoleID := r.ID, WorkspaceID := w.ID }) .groupRole ∧
      (RBACGroupService.DeleteRole c log (some k) (some r) (some w)).1
        = log ++ Call.newRequest "DELETE" ("/groups/" ++ k ++ "/roles")
              (.roleData { RoleID := r.ID, WorkspaceID := w.ID })
            :: doCalls c log "DELETE" ("/groups/" ++ k ++ "/roles")
                (.roleData { RoleID := r.ID, WorkspaceID := w.ID }) .groupPtr ∧
      (RBACGroupService.ListRoles c log (some k)).1
        = log ++ Call.newRequest "GET" ("/groups/" ++ k ++ "/roles") .nil
            :: doCalls c log "GET" ("/groups/" ++ k ++ "/roles") .nil .listRoles ∧
      ∀ (req : Request) (resp : ListRolesResponse),
        c.NewRequest log "GET" ("/groups/" ++ k ++ "/roles") .nil = .ok req →
        c.Do (log ++ [Call.newRequest "GET" ("/groups/" ++ k ++ "/roles") .nil]) req
            .listRoles = .ok resp →
        (RBACGroupService.ListRoles c log (some k)).2 = .ret (resp.Roles, none) := by
  refine ⟨?_, ?_, ?_, ?_⟩
  · simp only [RBACGroupService.AddRole, doCalls]
    cases c.NewRequest log "POST" ("/groups/" ++ k ++ "/roles")
        (.roleData { RoleID := r.ID, WorkspaceID := w.ID }) with
    | error err => simp
    | ok req =>
      simp only []
      cases c.Do (log ++ [Call.newRequest "POST" ("/groups/" ++ k ++ "/roles")
        (.roleData { RoleID := r.ID, WorkspaceID := w.ID })]) req .groupRole <;> simp
  · simp only [RBACGroupService.DeleteRole, doCalls]
    cases c.NewRequest log "DELETE" ("/groups/" ++ k ++ "/roles")
        (.roleData { RoleID := r.ID, WorkspaceID := w.ID }) with
    | error err => simp
    | ok req =>
      simp only []
      cases c.Do (log ++ [Call.newRequest "DELETE" ("/groups/" ++ k ++ "/roles")
        (.roleData { RoleID := r.ID, WorkspaceID := w.ID })]) req .groupPtr with
      | ok v => simp
      | error e => by_cases h : e.Error = "EOF" <;> simp [h]
  · simp only [RBACGroupService.ListRoles, doCalls]
    cases c.NewRequest log "GET" ("/groups/" ++ k ++ "/roles") .nil with
    | error err => simp
    | ok req =>
      simp only []
      cases c.Do (log ++ [Call.newRequest "GET" ("/groups/" ++ k ++ "/roles") .nil]) req
        .listRoles <;> simp
  · intro req resp hreq hdo
    simp [RBACGroupService.ListRoles, hreq, hdo]

/-- C8 on the sample client: the list returned by `ListRoles` is the `Roles` field
of the decoded response. -/
theorem role_endpoints_witness :
    (RBACGroupService.ListRoles okClient [] (some "7f3a")).2
      = .ret ([{ Group := none, Role := none, Workspace := none }], none) :=
  (role_endpoints okClient [] "7f3a" { ID := some "r1", Name := none }
    { ID := some "w1", Name := none }).2.2.2 _ _ rfl rfl

/-- C9: with an absent group key `AddRole`, `DeleteRole` and `ListRoles` panic on
the nil pointer, and so do `AddRole` and `DeleteRole` with an absent role or an
absent workspace; no error value is returned.  No client call is made. -/
theorem role_operations_panic_on_nil {Raw : Type} (c : Client Raw) (log : Log) :
    RBACGroupService.ListRoles c log none = (log, .panic nilDeref) ∧
      (∀ (k : Option String) (r : Option RBACRole) (w : Option Workspace),
        k = none ∨ r = none ∨ w = none →
          RBACGroupService.AddRole c log k r w = (log, .panic nilDeref) ∧
            RBACGroupService.DeleteRole c log k r w = (log, .panic nilDeref)) := by
  refine ⟨rfl, fun k r w h => ?_⟩
  cases r with
  | none => exact ⟨rfl, rfl⟩
  | some r =>
    cases w with
    | none => exact ⟨rfl, rfl⟩
    | some w =>
      cases k with
      | none => exact ⟨rfl, rfl⟩
      | some k => simp at h

/-- C9 on the sample client, with a role and a workspace and no key. -/
theorem role_operations_panic_on_nil_witness :
    RBACGroupService.AddRole okClient [] none
        (some { ID := some "r1", Name := none }) (some { ID := some "w1", Name := none })
      = ([], .panic nilDeref) :=
  ((role_operations_panic_on_nil okClient []).2 none
    (some { ID := some "r1", Name := none }) (some { ID := some "w1", Name := none })
    (Or.inl rfl)).1

/-- C5: when the pages `ps` followed by a last page `last` form the whole listing
(each page of `ps` hands back a cursor, the last page hands back none, every
object decodes), `ListAll` with fuel for one iteration per page returns the pages
concatenated in request order, nothing dropped or removed, with no error, having
made exactly one listing request per page; the length of the result is the sum
of the page lengths. -/
theorem listAll_concatenates_pages {Raw : Type} (c : Client Raw) (pageSize : Int)
    (log : Log) (ps : List (List RBACGroup × ListOpt)) (last : List RBACGroup) (fuel : Nat)
    (hps : Pages c log { Size := pageSize, Offset := "" } ps)
    (hlast : PageOK c (log ++ listCalls { Size := pageSize, Offset := "" } ps)
      (lastCursor { Size := pageSize, Offset := "" } ps) last none)
    (hfuel : ps.length + 1 ≤ fuel) :
    RBACGroupService.ListAll c pageSize fuel log
        = some (log ++ listCalls { Size := pageSize, Offset := "" } ps
                  ++ [Call.list "/groups/"
                        (some (lastCursor { Size := pageSize, Offset := "" } ps))],
                ((ps.map Prod.fst).flatten ++ last, none)) ∧
      ((ps.map Prod.fst).flatten ++ last).length
        = (ps.map (fun q => q.1.length)).sum + last.length := by
  constructor
  · obtain ⟨k, rfl⟩ : ∃ k, fuel = ps.length + (k + 1) := ⟨fuel - (ps.length + 1), by omega⟩
    unfold RBACGroupService.ListAll
    rw [listAllLoop_pages c ps _ _ _ _ hps, listAllLoop_last_ok c _ _ _ _ k hlast]
    simp
  · simp only [List.length_append, List.length_flatten, List.map_map]
    rfl

/-- C5 on the sample two-page listing: pages `g1, g2` and `g3, g1` come back as
`g1, g2, g3, g1`. -/
theorem listAll_concatenates_pages_witness :
    RBACGroupService.ListAll (pagedClient (.ok ([3, 1], none))) 1000 2 []
      = some ([Call.list "/groups/" (some { Size := 1000, Offset := "" }),
               Call.list "/groups/" (some { Size := 1000, Offset := "p2" })],
              ([sampleGroup 1, sampleGroup 2, sampleGroup 3, sampleGroup 1], none)) :=
  (listAll_concatenates_pages (pagedClient (.ok ([3, 1], none))) 1000 []
    [([sampleGroup 1, sampleGroup 2], { Size := 1000, Offset := "p2" })]
    [sampleGroup 3, sampleGroup 1] 2
    ⟨⟨[1, 2], rfl, .cons rfl (.cons rfl .nil)⟩, trivial⟩
    ⟨[3, 1], rfl, .cons rfl (.cons rfl .nil)⟩
    (by decide)).1

/-- C10: when the pages `ps` are fetched and decoded and the next listing request
fails with `e` (in the client or while decoding), `ListAll` with fuel for one
iteration per request returns `e` with the nil list, not the groups of `ps`; the
requests it has made are one with the default page size, then one per cursor
handed back, the failing request being the last. -/
theorem listAll_all_or_nothing {Raw : Type} (c : Client Raw) (pageSize : Int)
    (log : Log) (ps : List (List RBACGroup × ListOpt)) (e : GoError) (fuel : Nat)
    (hps : Pages c log { Size := pageSize, Offset := "" } ps)
    (hfail : PageFails c (log ++ listCalls { Size := pageSize, Offset := "" } ps)
      (lastCursor { Size := pageSize, Offset := "" } ps) e)
    (hfuel : ps.length + 1 ≤ fuel) :
    RBACGroupService.ListAll c pageSize fuel log
      = some (log ++ listCalls { Size := pageSize, Offset := "" } ps
                ++ [Call.list "/groups/"
                      (some (lastCursor { Size := pageSize, Offset := "" } ps))],
              ([], some e)) := by
  obtain ⟨k, rfl⟩ : ∃ k, fuel = ps.length + (k + 1) := ⟨fuel - (ps.length + 1), by omega⟩
  unfold RBACGroupService.ListAll
  rw [listAllLoop_pages c ps _ _ _ _ hps, listAllLoop_last_fails c _ _ _ _ k hfail]

/-- C10 on the sample listing, the second request failing in the client, and
failing while decoding its second object. -/
theorem listAll_all_or_nothing_witness :
    RBACGroupService.ListAll (pagedClient (.error (.transport "connection reset"))) 1000 5 []
        = some ([Call.list "/groups/" (some { Size := 1000, Offset := "" }),
                 Call.list "/groups/" (some { Size := 1000, Offset := "p2" })],
                ([], some (.transport "connection reset"))) ∧
      RBACGroupService.ListAll (pagedClient (.ok ([3, 0, 2], none))) 1000 5 []
        = some ([Call.list "/groups/" (some { Size := 1000, Offset := "" }),
                 Call.list "/groups/" (some { Size := 1000, Offset := "p2" })],
                ([], some (.transport "unexpected end of JSON input"))) :=
  ⟨listAll_all_or_nothing (pagedClient (.error (.transport "connection reset"))) 1000 []
      [([sampleGroup 1, sampleGroup 2], { Size := 1000, Offset := "p2" })]
      (.transport "connection reset") 5
      ⟨⟨[1, 2], rfl, .cons rfl (.cons rfl .nil)⟩, trivial⟩ (Or.inl rfl) (by decide),
   listAll_all_or_nothing (pagedClient (.ok ([3, 0, 2], none))) 1000 []
      [([sampleGroup 1, sampleGroup 2], { Size := 1000, Offset := "p2" })]
      (.transport "unexpected end of JSON input") 5
      ⟨⟨[1, 2], rfl, .cons rfl (.cons rfl .nil)⟩, trivial⟩
      (Or.inr ⟨[3], 0, [2], none, rfl, fun o ho => by
        rw [List.mem_singleton] at ho; subst ho; exact ⟨sampleGroup 3, rfl⟩, rfl⟩)
      (by decide)⟩

/-- C6, as stated, fails: on a client whose `Do` fails with the error
`connection refused`, `AddRole` returns another error value, with another
message. -/
theorem addRole_rewords_error :
    (RBACGroupService.AddRole (doFailsClient (.transport "connection refused")) []
        (some "7f3a") (some { ID := some "r1", Name := none })
        (some { ID := some "w1", Name := none })).2
      = .ret (none, some (.errorf "error updating role: connection refused")) ∧
    GoError.errorf "error updating role: connection refused"
      ≠ GoError.transport "connection refused" ∧
    (GoError.errorf "error updating role: connection refused").Error
      ≠ (GoError.transport "connection refused").Error := by
  refine ⟨rfl, by decide, by decide⟩

/-- C6, amended: when the transport fails with `e`, `Create`, `Get`, `Update`,
`Delete`, `List` and `ListAll` return exactly `e`; `AddRole`, `ListRoles` and
`DeleteRole` return exactly `e` when `NewRequest` fails, and when `Do` fails (for
`DeleteRole`: with a message other than `EOF`) they return a new error whose
message is a fixed lead-in followed by the message of `e`. -/
theorem transport_errors_returned {Raw : Type} (c : Client Raw) (log : Log) (e : GoError) :
    (∀ g : RBACGroup, RequestFails c log "POST" "/groups" (.group g) .group e →
        (RBACGroupService.Create c log (some g)).2 = .ret (none, some e)) ∧
    (∀ k : String, k ≠ "" → RequestFails c log "GET" ("/groups/" ++ k) .nil .group e →
        (RBACGroupService.Get c log (some k)).2 = .ret (none, some e)) ∧
    (∀ (g : RBACGroup) (id : String), g.ID = some id →
        (isEmptyString g.ID && isEmptyString g.Name) = false →
        RequestFails c log "PATCH" ("/groups/" ++ id) (.group g) .group e →
        (RBACGroupService.Update c log (some g)).2 = .ret (none, some e)) ∧
    (∀ k : String, k ≠ "" → RequestFails c log "DELETE" ("/groups/" ++ k) .nil .none e →
        (RBACGroupService.Delete c log (some k)).2 = .ret (some e)) ∧
    (∀ opt : Option ListOpt, c.list log "/groups/" opt = .error e →
        (RBACGroupService.List c log opt).2 = ([], none, some e)) ∧
    (∀ (pageSize : Int) (ps : List (List RBACGroup × ListOpt)) (fuel : Nat),
        Pages c log { Size := pageSize, Offset := "" } ps →
        c.list (log ++ listCalls { Size := pageSize, Offset := "" } ps) "/groups/"
            (some (lastCursor { Size := pageSize, Offset := "" } ps)) = .error e →
        ps.length + 1 ≤ fuel →
        (RBACGroupService.ListAll c pageSize fuel log).map Prod.snd = some ([], some e)) ∧
    (∀ (k : String) (r : RBACRole) (w : Workspace),
        (c.NewRequest log "POST" ("/groups/" ++ k ++ "/roles")
            (.roleData { RoleID := r.ID, WorkspaceID := w.ID }) = .error e →
          (RBACGroupService.AddRole c log (some k) (some r) (some w)).2
            = .ret (none, some e)) ∧
        (c.NewRequest log "DELETE" ("/groups/" ++ k ++ "/roles")
            (.roleData { RoleID := r.ID, WorkspaceID := w.ID }) = .error e →
          (RBACGroupService.DeleteRole c log (some k) (some r) (some w)).2
            = .ret (some e)) ∧
        (c.NewRequest log "GET" ("/groups/" ++ k ++ "/roles") .nil = .error e →
          (RBACGroupService.ListRoles c log (some k)).2 = .ret ([], some e))) ∧
    (∀ (k : String) (r : RBACRole) (w : Workspace) (req : Request),
        (c.NewRequest log "POST" ("/groups/" ++ k ++ "/roles")
            (.roleData { RoleID := r.ID, WorkspaceID := w.ID }) = .ok req →
          c.Do (log ++ [Call.newRequest "POST" ("/groups/" ++ k ++ "/roles")
            (.roleData { RoleID := r.ID, WorkspaceID := w.ID })]) req .groupRole = .error e →
          (RBACGroupService.AddRole c log (some k) (some r) (some w)).2
            = .ret (none, some (.errorf ("error updating role: " ++ e.Error)))) ∧
        (c.NewRequest log "DELETE" ("/groups/" ++ k ++ "/roles")
            (.roleData { RoleID := r.ID, WorkspaceID := w.ID }) = .ok req →
          c.Do (log ++ [Call.newRequest "DELETE" ("/groups/" ++ k ++ "/roles")
            (.roleData { RoleID := r.ID, WorkspaceID := w.ID })]) req .groupPtr = .error e →
          e.Error ≠ "EOF" →
          (RBACGroupService.DeleteRole c log (some k) (some r) (some w)).2
            = .ret (some (.errorf ("error delete role: " ++ e.Error)))) ∧
        (c.NewRequest log "GET" ("/groups/" ++ k ++ "/roles") .nil = .ok req →
          c.Do (log ++ [Call.newRequest "GET" ("/groups/" ++ k ++ "/roles") .nil]) req
            .listRoles = .error e →
          (RBACGroupService.ListRoles c log (some k)).2
            = .ret ([], some (.errorf ("error retrieving list of roles: " ++ e.Error))))) := by
  refine ⟨?_, ?_, ?_, ?_, ?_, ?_, ?_, ?_⟩
  · rintro g (h | ⟨req, h1, h2⟩)
    · simp [RBACGroupService.Create, h]
    · simp [RBACGroupService.Create, h1, h2]
  · rintro k hk (h | ⟨req, h1, h2⟩)
    · simp [RBACGroupService.Get, isEmptyString, hk, h]
    · simp [RBACGroupService.Get, isEmptyString, hk, h1, h2]
  · rintro g id hid hvalid (h | ⟨req, h1, h2⟩)
    · unfold RBACGroupService.Update
      simp only [hid] at hvalid ⊢
      simp [hvalid, h]
    · unfold RBACGroupService.Update
      simp only [hid] at hvalid ⊢
      simp [hvalid, h1, h2]
  · rintro k hk (h | ⟨req, h1, h2⟩)
    · simp [RBACGroupService.Delete, isEmptyString, hk, h]
    · simp [RBACGroupService.Delete, isEmptyString, hk, h1, h2]
  · intro opt h
    simp [RBACGroupService.List, h]
  · intro pageSize ps fuel hps hfail hfuel
    obtain ⟨k, rfl⟩ : ∃ k, fuel = ps.length + (k + 1) := ⟨fuel - (ps.length + 1), by omega⟩
    unfold RBACGroupService.ListAll
    rw [listAllLoop_pages c ps _ _ _ _ hps,
      listAllLoop_last_fails c _ _ _ _ k (Or.inl hfail)]
    rfl
  · intro k r w
    refine ⟨fun h => ?_, fun h => ?_, fun h => ?_⟩
    · simp [RBACGroupService.AddRole, h]
    · simp [RBACGroupService.DeleteRole, h]
    · simp [RBACGroupService.ListRoles, h]
  · intro k r w req
    refine ⟨fun h1 h2 => ?_, fun h1 h2 h3 => ?_, fun h1 h2 => ?_⟩
    · simp [RBACGroupService.AddRole, h1, h2]
    · simp [RBACGroupService.DeleteRole, h1, h2, h3]
    · simp [RBACGroupService.ListRoles, h1, h2]

/-- C6, amended, on sample clients: `Get` hands back the very error of a failing
`Do`, `ListAll` the very error of a failing second page, `AddRole` the very error
of a failing `NewRequest`, and `ListRoles` a re-worded error when `Do` fails. -/
theorem transport_errors_returned_witness :
    (RBACGroupService.Get (doFailsClient (.transport "connection refused")) []
        (some "7f3a")).2 = .ret (none, some (.transport "connection refused")) ∧
    (RBACGroupService.ListAll (pagedClient (.error (.transport "connection refused")))
        1000 2 []).map Prod.snd = some ([], some (.transport "connection refused")) ∧
    (RBACGroupService.AddRole (newRequestFailsClient (.transport "connection refused")) []
        (some "7f3a") (some { ID := some "r1", Name := none })
        (some { ID := some "w1", Name := none })).2
      = .ret (none, some (.transport "connection refused")) ∧
    (RBACGroupService.ListRoles (doFailsClient (.transport "connection refused")) []
        (some "7f3a")).2
      = .ret ([], some (.errorf "error retrieving list of roles: connection refused")) :=
  ⟨(transport_errors_returned (doFailsClient (.transport "connection refused")) []
      (.transport "connection refused")).2.1 "7f3a" (by decide) (Or.inr ⟨_, rfl, rfl⟩),
   (transport_errors_returned (pagedClient (.error (.transport "connection refused"))) []
      (.transport "connection refused")).2.2.2.2.2.1 1000
      [([sampleGroup 1, sampleGroup 2], { Size := 1000, Offset := "p2" })] 2
      ⟨⟨[1, 2], rfl, .cons rfl (.cons rfl .nil)⟩, trivial⟩ rfl (by decide),
   ((transport_errors_returned (newRequestFailsClient (.transport "connection refused")) []
      (.transport "connection refused")).2.2.2.2.2.2.1 "7f3a"
      { ID := some "r1", Name := none } { ID := some "w1", Name := none }).1 rfl,
   ((transport_errors_returned (doFailsClient (.transport "connection refused")) []
      (.transport "connection refused")).2.2.2.2.2.2.2 "7f3a"
      { ID := some "r1", Name := none } { ID := some "w1", Name := none } _).2.2 rfl rfl⟩

end kong
